import Mathlib

/-!
Verification of the dotsync symlink/relocation engine.

This file gives a shallow embedding of the core of the dotsync repository:
the path classifier (internal/pathutil/infer.go), the entry-conflict check
(internal/pathutil/validate.go), the manifest operations
(internal/manifest/manifest.go), the symlink state machine and relocator
(internal/symlink/symlink.go), the backup manager (internal/backup),
the Add workflow tail (cmd/dotsync/cmd/add.go), the link-conflict resolver
(cmd/dotsync/cmd/link.go) and the Unlink workflow (cmd/dotsync/cmd/unlink.go).

Modelling conventions:
- Go strings are lists of characters (GoStr).
- The filesystem is a total map from paths to nodes; parent directories are
  abstracted away (MkdirAll is modelled as always succeeding).
- stat follows symlink chains with the Linux resolution limit of 40 links;
  exhausting the limit models an ELOOP error.
- Primitive filesystem operations are atomic: a failing operation either
  leaves the state unchanged or performs exactly the mutations the Go code
  performs before returning the error.  Fault injection flags model
  environment failures (cross-filesystem rename, unwritable directory,
  failing manifest save).
- Functions returning (T, error) in Go are modelled with Option, or with a
  state-and-success pair (FS × Bool) when the state can change on error.
-/

namespace Dotsync

/-- Go strings are modelled as lists of characters. -/
abbrev GoStr := List Char

/-- Converts a Lean string literal into the Go string model. -/
def gs (s : String) : GoStr := s.toList

/-- Models strings.HasPrefix from Go: startsWith pre s is true when s begins with pre. -/
def startsWith : GoStr → GoStr → Bool
  | [], _ => true
  | _ :: _, [] => false
  | c :: cs, d :: ds => c = d && startsWith cs ds

/-- Models strings.HasSuffix. -/
def endsWith (suf s : GoStr) : Bool := startsWith suf.reverse s.reverse

/-- Models strings.TrimPrefix: drops pre from the front of s when s begins with pre. -/
def trimPfx (s pre : GoStr) : GoStr := if startsWith pre s then s.drop pre.length else s

/-- Models strings.TrimSuffix: drops suf from the end of s when s ends with suf. -/
def trimSfx (s suf : GoStr) : GoStr :=
  if endsWith suf s then s.take (s.length - suf.length) else s

/-- Helper for splitOnChar: prepends a character onto the first piece. -/
def consHead (c : Char) : List GoStr → List GoStr
  | [] => [[c]]
  | r :: rs => (c :: r) :: rs

/-- Models strings.Split with a one-character separator. -/
def splitOnChar (sep : Char) : GoStr → List GoStr
  | [] => [[]]
  | c :: rest =>
    if c = sep then [] :: splitOnChar sep rest else consHead c (splitOnChar sep rest)

/-- Joins pieces with a separator character (the inverse of splitOnChar). -/
def joinSep (sep : Char) : List GoStr → GoStr
  | [] => []
  | [x] => x
  | x :: xs => x ++ sep :: joinSep sep xs

/-- True when the path is absolute (starts with a slash).  Unix semantics. -/
def isAbsPath : GoStr → Bool
  | '/' :: _ => true
  | _ => false

/-- One step of path cleaning: processes a single component as filepath.Clean does. -/
def cleanStep (abs : Bool) (acc : List GoStr) (c : GoStr) : List GoStr :=
  if c = [] ∨ c = gs "." then acc
  else if c = gs ".." then
    if acc ≠ [] ∧ acc.getLast? ≠ some (gs "..") then acc.dropLast
    else if abs then acc else acc ++ [c]
  else acc ++ [c]

/-- Models filepath.Clean for Unix paths: removes empty, dot and resolvable
dot-dot components. -/
def clean (p : GoStr) : GoStr :=
  let abs := isAbsPath p
  let out := (splitOnChar '/' p).foldl (cleanStep abs) []
  if abs then
    if out = [] then gs "/" else '/' :: joinSep '/' out
  else
    if out = [] then gs "." else joinSep '/' out

/-- Models filepath.Join: drops empty elements, joins with slashes and cleans. -/
def joinList (xs : List GoStr) : GoStr :=
  let ys := xs.filter (fun x => x ≠ [])
  if ys = [] then [] else clean (joinSep '/' ys)

/-- Two-argument filepath.Join. -/
def join2 (a b : GoStr) : GoStr := joinList [a, b]

/-- Drops the common leading components of two component lists. -/
def dropCommon : List GoStr → List GoStr → List GoStr × List GoStr
  | [], t => ([], t)
  | b, [] => (b, [])
  | x :: xs, y :: ys => if x = y then dropCommon xs ys else (x :: xs, y :: ys)

/-- Models filepath.Rel on cleaned Unix paths: the relative path from base to
targ computed componentwise, or none when it cannot be formed. -/
def relPathOpt (base targ : GoStr) : Option GoStr :=
  let b := clean base
  let t := clean targ
  if isAbsPath b ≠ isAbsPath t then none
  else
    let bc := if b = gs "." then [] else (splitOnChar '/' b).filter (fun x => x ≠ [])
    let tc := if t = gs "." then [] else (splitOnChar '/' t).filter (fun x => x ≠ [])
    let pr := dropCommon bc tc
    if pr.1.any (fun x => x = gs "..") then none
    else
      let parts := pr.1.map (fun _ => gs "..") ++ pr.2
      if parts = [] then some (gs ".") else some (joinSep '/' parts)

/-- Models filepath.Abs: cleans an absolute path, otherwise joins with the
working directory. -/
def absPathOf (cwd p : GoStr) : GoStr := if isAbsPath p then clean p else join2 cwd p

/-- Models pathutil.ExpandHome for Unix: replaces a leading tilde with the home
directory. -/
def expandHome (home p : GoStr) : GoStr :=
  if startsWith (gs "~") p = false then p
  else if p = gs "~" then home
  else if startsWith (gs "~/") p then join2 home (p.drop 2)
  else p

/-- Models pathutil.contractHome: replaces the home directory with a tilde. -/
def contractHome (p home : GoStr) : GoStr :=
  if p = home then gs "~"
  else if startsWith (home ++ ['/']) p then gs "~" ++ p.drop home.length
  else p

/-- A node of the modelled filesystem.  File data is abstracted to a content
identifier standing for the byte content together with its permission bits. -/
inductive FNode
  | missing
  | file (data : Nat)
  | dir
  | symlink (target : GoStr)
deriving DecidableEq

/-- The filesystem: a total map from paths to nodes.  Parent directories are
abstracted away. -/
abbrev FS := GoStr → FNode

/-- Updates the filesystem at one path. -/
def setNode (fs : FS) (p : GoStr) (n : FNode) : FS :=
  fun q => if q = p then n else fs q

/-- Result of an os.Stat call: the resolved node, a not-exist error, or a
symlink-loop (ELOOP) error. -/
inductive StatRes
  | found (n : FNode)
  | notExist
  | errLoop
deriving DecidableEq

/-- Linux resolves at most 40 symlinks before reporting ELOOP. -/
def resolveFuel : Nat := 40

/-- Fueled symlink resolution for os.Stat. -/
def statResolveFuel (fs : FS) : Nat → GoStr → StatRes
  | 0, _ => .errLoop
  | fuel + 1, p =>
    match fs p with
    | .missing => .notExist
    | .file d => .found (.file d)
    | .dir => .found .dir
    | .symlink t => statResolveFuel fs fuel t

/-- Models os.Stat: resolves symlink chains up to the system limit. -/
def statResolve (fs : FS) (p : GoStr) : StatRes := statResolveFuel fs resolveFuel p

/-- Resolves the path an open-for-write call would actually write through. -/
def resolveWriteFuel (fs : FS) : Nat → GoStr → GoStr
  | 0, p => p
  | fuel + 1, p =>
    match fs p with
    | .symlink t => resolveWriteFuel fs fuel t
    | _ => p

/-- Models the unexported copyFile helper shared by the symlink and backup
packages: opens src following symlinks, creates/truncates dst and copies the
bytes and permission bits.  none models any error return. -/
def copyF (fs : FS) (src dst : GoStr) : Option FS :=
  match statResolve fs src with
  | .found (.file d) =>
    let w := resolveWriteFuel fs resolveFuel dst
    match fs w with
    | .dir => none
    | _ => some (setNode fs w (.file d))
  | _ => none

/-- The five symlink statuses of symlink.Status. -/
inductive Status
  | notExist
  | linked
  | broken
  | incorrect
  | notLinked
deriving DecidableEq

/-- Models symlink.Check: classifies linkPath against expectedTarget.  The
returned string is the literal symlink target that Go reports alongside the
status; none models the error return (a stat failure that is not
does-not-exist, that is, a symlink loop). -/
def check (fs : FS) (cwd linkPath expectedTarget : GoStr) : Option (Status × GoStr) :=
  match fs linkPath with
  | .missing => some (.notExist, [])
  | .file _ => some (.notLinked, [])
  | .dir => some (.notLinked, [])
  | .symlink actualTarget =>
    match statResolve fs linkPath with
    | .notExist => some (.broken, actualTarget)
    | .errLoop => none
    | .found _ =>
      if actualTarget ≠ expectedTarget ∧
          absPathOf cwd expectedTarget ≠ absPathOf cwd actualTarget
      then some (.incorrect, actualTarget)
      else some (.linked, actualTarget)

/-- Models symlink.Create: fails when something already occupies linkPath
(os.Symlink refuses to overwrite); parent directory creation is abstracted. -/
def createLink (fs : FS) (linkPath targetPath : GoStr) : FS × Bool :=
  match fs linkPath with
  | .missing => (setNode fs linkPath (.symlink targetPath), true)
  | _ => (fs, false)

/-- Models symlink.Remove: succeeds without change when nothing exists, errors
on a non-symlink, removes the link object otherwise. -/
def removeLink (fs : FS) (linkPath : GoStr) : FS × Bool :=
  match fs linkPath with
  | .missing => (fs, true)
  | .symlink _ => (setNode fs linkPath .missing, true)
  | _ => (fs, false)

/-- Fault-injection flags for symlink.MoveFile: the rename can fail (as on a
cross-filesystem move), the fallback copy can fail, and the post-copy delete of
the source can fail (as in a read-only parent directory). -/
structure MoveFaults where
  renameFails : Bool
  copyFails : Bool
  deleteFails : Bool
deriving DecidableEq

/-- A fault-free environment for MoveFile. -/
def noMoveFaults : MoveFaults := ⟨false, false, false⟩

/-- Models symlink.MoveFile: rename first; on failure copy then delete the
source; when the delete fails after a successful copy the destination copy is
removed before the error is returned. -/
def moveFileM (fs : FS) (f : MoveFaults) (src dst : GoStr) : FS × Bool :=
  if ¬ f.renameFails ∧ fs src ≠ FNode.missing then
    (setNode (setNode fs dst (fs src)) src FNode.missing, true)
  else
    match (if f.copyFails then none else copyF fs src dst) with
    | none => (fs, false)
    | some fs1 =>
      if f.deleteFails then (setNode fs1 dst FNode.missing, false)
      else (setNode fs1 src FNode.missing, true)

/-- Models Backup.Restore followed by the backup-file removal: copies the
backup back over the original location and deletes the backup file; when the
copy-back fails the backup file is kept (fail loud, do not lose data). -/
def backupRestore (fs : FS) (orig bk : GoStr) : FS :=
  match copyF fs bk orig with
  | none => fs
  | some fs1 => setNode fs1 bk FNode.missing

/-- Fault-injection flags for the destructive tail of runAdd. -/
structure AddFaults where
  backupFails : Bool
  move : MoveFaults
  createLinkFails : Bool
  saveFails : Bool

/-- Models steps 7 to 12 of runAdd (cmd/dotsync/cmd/add.go): refuse an occupied
destination, back up the source, move it into storage, create the symlink,
save the manifest, then discard the backup.  Every failing step runs the
rollback sequence the Go code runs.  The returned Bool is overall success. -/
def runAddTail (fs : FS) (fl : AddFaults) (absPath destPath bkPath : GoStr) : FS × Bool :=
  match statResolve fs destPath with
  | .found _ => (fs, false)
  | _ =>
    match (if fl.backupFails then none else copyF fs absPath bkPath) with
    | none => (fs, false)
    | some fs1 =>
      match moveFileM fs1 fl.move absPath destPath with
      | (fs2, false) => (backupRestore fs2 absPath bkPath, false)
      | (fs2, true) =>
        match (if fl.createLinkFails then (fs2, false) else createLink fs2 absPath destPath) with
        | (fs2b, false) =>
          let fs3 := (moveFileM fs2b noMoveFaults destPath absPath).1
          (backupRestore fs3 absPath bkPath, false)
        | (fs3, true) =>
          if fl.saveFails then
            let fs4 := (removeLink fs3 absPath).1
            let fs5 := (moveFileM fs4 noMoveFaults destPath absPath).1
            (backupRestore fs5 absPath bkPath, false)
          else
            (setNode fs3 bkPath FNode.missing, true)

/-- The result of pathutil.InferFromPath. -/
structure InferResult where
  name : GoStr
  root : GoStr
  relPath : GoStr
deriving DecidableEq

/-- Models pathutil.InferFromPath: infers an entry name, root and relative path
from an absolute path.  The home directory and the darwin platform gate are
explicit parameters instead of ambient process state. -/
def inferFromPath (home : GoStr) (isDarwin : Bool) (absPath0 : GoStr) : Option InferResult :=
  let absPath := clean absPath0
  if startsWith home absPath = false then none
  else
    match relPathOpt home absPath with
    | none => none
    | some relToHome =>
      let parts := splitOnChar '/' relToHome
      if parts.length = 0 then none
      else
        let p0 := parts.getD 0 []
        if p0 = gs ".config" ∧ 3 ≤ parts.length then
          some ⟨parts.getD 1 [],
                contractHome (joinList [home, gs ".config", parts.getD 1 []]) home,
                joinList (parts.drop 2)⟩
        else if isDarwin = true ∧ p0 = gs "Library" ∧ 4 ≤ parts.length ∧
            parts.getD 1 [] = gs "Application Support" then
          some ⟨parts.getD 2 [],
                contractHome (joinList [home, gs "Library", gs "Application Support",
                  parts.getD 2 []]) home,
                joinList (parts.drop 3)⟩
        else if startsWith (gs ".") p0 = true ∧ 2 ≤ parts.length then
          some ⟨trimPfx p0 (gs "."),
                contractHome (joinList [home, p0]) home,
                joinList (parts.drop 1)⟩
        else if startsWith (gs ".") p0 = true ∧ parts.length = 1 then
          some ⟨(if trimSfx (trimPfx p0 (gs ".")) (gs "rc") = [] then trimPfx p0 (gs ".")
                 else trimSfx (trimPfx p0 (gs ".")) (gs "rc")),
                gs "~", p0⟩
        else none

/-- A manifest entry: the portable root and the ordered relative file list. -/
structure Entry where
  root : GoStr
  files : List GoStr
deriving DecidableEq

/-- The manifest: schema version and the name-to-entry map, modelled as an
association list with unique keys iterated in a fixed order. -/
structure Manifest where
  version : Nat
  entries : List (GoStr × Entry)
deriving DecidableEq

/-- Map lookup on the entry list. -/
def lookupEntry (es : List (GoStr × Entry)) (name : GoStr) : Option Entry :=
  match es with
  | [] => none
  | (n, e) :: rest => if n = name then some e else lookupEntry rest name

/-- Map store on the entry list: replaces the entry in place, else appends. -/
def setEntry (es : List (GoStr × Entry)) (name : GoStr) (e : Entry) : List (GoStr × Entry) :=
  match es with
  | [] => [(name, e)]
  | (n, e0) :: rest => if n = name then (n, e) :: rest else (n, e0) :: setEntry rest name e

/-- Models Manifest.AddFile: adds a file to an entry, creating the entry if it
does not exist; returns false when the file is already tracked there. -/
def addFile (m : Manifest) (name root relPath : GoStr) : Bool × Manifest :=
  let entry := match lookupEntry m.entries name with
    | some e => e
    | none => Entry.mk root []
  if relPath ∈ entry.files then (false, m)
  else (true, Manifest.mk m.version
    (setEntry m.entries name (Entry.mk entry.root (entry.files ++ [relPath]))))

/-- The first loop of pathutil.CheckEntryConflict: some r is an early return
with result r (the empty string meaning no conflict), none means the loop ran
to completion. -/
def conflictFirstLoop (home absPath explicitName : GoStr) :
    List (GoStr × Entry) → Option GoStr
  | [] => none
  | (name, e) :: rest =>
    let entryRoot := expandHome home e.root
    if startsWith (entryRoot ++ ['/']) absPath = true ∨ absPath = entryRoot then
      if explicitName ≠ [] ∧ explicitName ≠ name then some name else some []
    else if e.files.any (fun f => join2 entryRoot f = absPath) then some name
    else conflictFirstLoop home absPath explicitName rest

/-- The root-overlap loop of pathutil.CheckEntryConflict: returns the first
entry whose root strictly contains or is strictly contained in inferredRoot. -/
def overlapLoop (home inferredRoot : GoStr) : List (GoStr × Entry) → GoStr
  | [] => []
  | (name, e) :: rest =>
    let entryRoot := expandHome home e.root
    if startsWith (entryRoot ++ ['/']) inferredRoot = true ∨
        startsWith (inferredRoot ++ ['/']) entryRoot = true
    then name else overlapLoop home inferredRoot rest

/-- Models pathutil.CheckEntryConflict: the empty string means no conflict,
otherwise the conflicting entry name is returned. -/
def checkEntryConflict (home : GoStr) (isDarwin : Bool) (absPath explicitName : GoStr)
    (m : Manifest) : GoStr :=
  match conflictFirstLoop home absPath explicitName m.entries with
  | some r => r
  | none =>
    match inferFromPath home isDarwin absPath with
    | some inf =>
      if explicitName = [] then overlapLoop home (expandHome home inf.root) m.entries
      else []
    | none => []

/-- The three outcomes of the link-conflict decision. -/
inductive ConflictAction
  | backup
  | skip
  | abort
deriving DecidableEq

/-- ASCII lowering of one character, the fragment of strings.ToLower the
prompt needs. -/
def toLowerChar (c : Char) : Char :=
  if 'A' ≤ c ∧ c ≤ 'Z' then Char.ofNat (c.toNat + 32) else c

/-- Models strings.ToLower on the prompt response. -/
def toLowerStr (s : GoStr) : GoStr := s.map toLowerChar

/-- The whitespace class of strings.TrimSpace that terminal input can contain. -/
def isSpaceChar (c : Char) : Bool := c = ' ' ∨ c = '\t' ∨ c = '\n' ∨ c = '\r'

/-- Models strings.TrimSpace. -/
def trimSpace (s : GoStr) : GoStr :=
  ((s.dropWhile isSpaceChar).reverse.dropWhile isSpaceChar).reverse

/-- Models promptConflictAction (cmd/dotsync/cmd/link.go): in automatic-backup
mode always backup; otherwise the trimmed, lowered response selects the
action, with every unrecognized input defaulting to skip. -/
def promptConflictAction (autoBackup : Bool) (response : GoStr) : ConflictAction :=
  if autoBackup then .backup
  else
    let r := trimSpace (toLowerStr response)
    if r = gs "b" ∨ r = gs "backup" then .backup
    else if r = gs "s" ∨ r = gs "skip" then .skip
    else if r = gs "a" ∨ r = gs "abort" then .abort
    else .skip

/-- The per-file results of the Unlink workflow. -/
inductive UnlinkResult
  | unlinked
  | skipped
  | notExist
  | failed
deriving DecidableEq

/-- Models doUnlink (cmd/dotsync/cmd/unlink.go): when the cloud copy is missing
the symlink is removed with a warning; otherwise the symlink is removed and
the cloud file is copied, not moved, back to the original location, restoring
the symlink best-effort when the copy fails. -/
def doUnlink (fs : FS) (originalPath cloudPath : GoStr) : UnlinkResult × FS :=
  if statResolve fs cloudPath = .notExist then
    match removeLink fs originalPath with
    | (fs1, true) => (.unlinked, fs1)
    | (fs1, false) => (.failed, fs1)
  else
    match removeLink fs originalPath with
    | (fs1, false) => (.failed, fs1)
    | (fs1, true) =>
      match copyF fs1 cloudPath originalPath with
      | some fs2 => (.unlinked, fs2)
      | none => (.failed, (createLink fs1 originalPath cloudPath).1)

/-- Models unlinkFile: dispatches on the symlink status of the original path. -/
def unlinkFile (fs : FS) (cwd originalPath cloudPath : GoStr) : UnlinkResult × FS :=
  match check fs cwd originalPath cloudPath with
  | none => (.failed, fs)
  | some (st, _) =>
    match st with
    | .notExist => (.notExist, fs)
    | .notLinked => (.skipped, fs)
    | .linked => doUnlink fs originalPath cloudPath
    | .incorrect => doUnlink fs originalPath cloudPath
    | .broken =>
      match removeLink fs originalPath with
      | (fs1, true) => (.unlinked, fs1)
      | (fs1, false) => (.failed, fs1)

/-- Unlinks every file of one entry, threading the filesystem. -/
def unlinkEntryFiles (cwd home storagePath entryRoot name : GoStr) (fs : FS) :
    List GoStr → FS
  | [] => fs
  | relPath :: rest =>
    let originalPath := join2 entryRoot relPath
    let cloudPath := joinList [storagePath, gs "dotsync", name, relPath]
    unlinkEntryFiles cwd home storagePath entryRoot name
      (unlinkFile fs cwd originalPath cloudPath).2 rest

/-- The world runUnlink acts on: the filesystem plus the manifest persisted in
storage (the external collaborator of the workflow). -/
structure World where
  fs : FS
  storedManifest : Manifest

/-- Models runUnlink over all entries: loads the manifest, unlinks every file
of every entry, and never writes the manifest back. -/
def runUnlink (cwd home storagePath : GoStr) (w : World) : World :=
  let fs2 := w.storedManifest.entries.foldl
    (fun fs pr =>
      unlinkEntryFiles cwd home storagePath (expandHome home pr.2.root) pr.1 fs pr.2.files)
    w.fs
  World.mk fs2 w.storedManifest

end Dotsync

namespace Dotsync

theorem setNode_self (fs : FS) (p : GoStr) (n : FNode) : setNode fs p n p = n := by
  simp [setNode]

theorem setNode_other (fs : FS) (p q : GoStr) (n : FNode) (h : q ≠ p) :
    setNode fs p n q = fs q := by
  simp [setNode, h]

theorem statResolveFuel_succ (fs : FS) (fuel : Nat) (p : GoStr) :
    statResolveFuel fs (fuel + 1) p =
      match fs p with
      | .missing => .notExist
      | .file d => .found (.file d)
      | .dir => .found .dir
      | .symlink t => statResolveFuel fs fuel t := rfl

theorem statResolve_unfold (fs : FS) (p : GoStr) :
    statResolve fs p = statResolveFuel fs (39 + 1) p := rfl

theorem statResolve_missing (fs : FS) (p : GoStr) (h : fs p = FNode.missing) :
    statResolve fs p = StatRes.notExist := by
  rw [statResolve_unfold, statResolveFuel_succ, h]

theorem statResolve_file (fs : FS) (p : GoStr) (d : Nat) (h : fs p = FNode.file d) :
    statResolve fs p = StatRes.found (FNode.file d) := by
  rw [statResolve_unfold, statResolveFuel_succ, h]

theorem resolveWriteFuel_succ (fs : FS) (fuel : Nat) (p : GoStr) :
    resolveWriteFuel fs (fuel + 1) p =
      match fs p with
      | .symlink t => resolveWriteFuel fs fuel t
      | _ => p := rfl

theorem resolveWrite_not_symlink (fs : FS) (p : GoStr) (h : ∀ t, fs p ≠ FNode.symlink t) :
    resolveWriteFuel fs resolveFuel p = p := by
  show resolveWriteFuel fs (39 + 1) p = p
  rw [resolveWriteFuel_succ]
  cases hp : fs p
  · rfl
  · rfl
  · rfl
  · exact absurd hp (h _)

theorem copyF_eq (g : FS) (src dst : GoStr) (d : Nat)
    (hs : statResolve g src = StatRes.found (FNode.file d))
    (hd1 : ∀ t, g dst ≠ FNode.symlink t) (hd2 : g dst ≠ FNode.dir) :
    copyF g src dst = some (setNode g dst (FNode.file d)) := by
  rw [copyF, hs]
  simp only [resolveWrite_not_symlink g dst hd1]

theorem copyF_none (g : FS) (src dst : GoStr)
    (h : ∀ d, statResolve g src ≠ StatRes.found (FNode.file d)) :
    copyF g src dst = none := by
  rw [copyF]
  cases hsr : statResolve g src with
  | found n =>
    cases n with
    | missing => rfl
    | file d => exact absurd hsr (h d)
    | dir => rfl
    | symlink t => rfl
  | notExist => rfl
  | errLoop => rfl

theorem copyF_spec (g : FS) (src dst : GoStr)
    (hd1 : ∀ t, g dst ≠ FNode.symlink t) (hd2 : g dst ≠ FNode.dir) (fs1 : FS)
    (h : copyF g src dst = some fs1) :
    ∃ d, statResolve g src = StatRes.found (FNode.file d)
      ∧ fs1 = setNode g dst (FNode.file d) := by
  cases hsr : statResolve g src with
  | found n =>
    cases n with
    | file d =>
      rw [copyF_eq g src dst d hsr hd1 hd2] at h
      exact ⟨d, rfl, (Option.some.injEq _ _ ▸ h).symm⟩
    | missing =>
      rw [copyF_none g src dst (fun e he => by rw [hsr] at he; cases he)] at h
      cases h
    | dir =>
      rw [copyF_none g src dst (fun e he => by rw [hsr] at he; cases he)] at h
      cases h
    | symlink t =>
      rw [copyF_none g src dst (fun e he => by rw [hsr] at he; cases he)] at h
      cases h
  | notExist =>
    rw [copyF_none g src dst (fun e he => by rw [hsr] at he; cases he)] at h
    cases h
  | errLoop =>
    rw [copyF_none g src dst (fun e he => by rw [hsr] at he; cases he)] at h
    cases h

end Dotsync

namespace Dotsync

/-- Claim C10: symlink.Remove returns success without changing anything when
nothing exists at the path; when a regular file or directory exists there it
returns an error and deletes nothing; it removes the filesystem object only
when the path is a symlink, and even then touches no other path — so Remove
never deletes a regular file or directory. -/
theorem c10_remove_only_symlinks (fs : FS) (p : GoStr) :
    (fs p = FNode.missing → removeLink fs p = (fs, true))
  ∧ (∀ d, fs p = FNode.file d → removeLink fs p = (fs, false))
  ∧ (fs p = FNode.dir → removeLink fs p = (fs, false))
  ∧ (∀ t, fs p = FNode.symlink t →
      removeLink fs p = (setNode fs p FNode.missing, true)
      ∧ ∀ q, q ≠ p → (removeLink fs p).1 q = fs q) := by
  refine ⟨?_, ?_, ?_, ?_⟩
  · intro h; rw [removeLink, h]
  · intro d h; rw [removeLink, h]
  · intro h; rw [removeLink, h]
  · intro t h
    constructor
    · rw [removeLink, h]
    · intro q hq
      rw [removeLink, h]
      exact setNode_other fs p q FNode.missing hq

theorem c10_remove_witness :
    ((fun q => if q = gs "/f" then FNode.file 3 else FNode.missing) (gs "/f") = FNode.file 3)
    ∧ removeLink (fun q => if q = gs "/f" then FNode.file 3 else FNode.missing) (gs "/f")
      = ((fun q => if q = gs "/f" then FNode.file 3 else FNode.missing), false) :=
  ⟨by decide, (c10_remove_only_symlinks _ _).2.1 3 (by decide)⟩

/-- Claim C3: MoveFile first attempts a rename; on failure it falls back to
copy-then-delete-source, and when the delete fails after a successful copy the
destination copy is removed before the error is returned.  Consequently no
return path leaves the file at both src and dst: on any failure the source is
untouched and the destination stays absent, and on success the source is gone. -/
theorem c3_moveFile_never_both (fs : FS) (f : MoveFaults) (src dst : GoStr)
    (hne : src ≠ dst) (hdst : fs dst = FNode.missing) :
    (¬ ((∃ a, (moveFileM fs f src dst).1 src = FNode.file a)
        ∧ (∃ b, (moveFileM fs f src dst).1 dst = FNode.file b)))
  ∧ ((moveFileM fs f src dst).2 = false →
      (moveFileM fs f src dst).1 src = fs src
      ∧ (moveFileM fs f src dst).1 dst = FNode.missing)
  ∧ ((moveFileM fs f src dst).2 = true → (moveFileM fs f src dst).1 src = FNode.missing) := by
  have hd1 : ∀ t, fs dst ≠ FNode.symlink t := fun t h => by rw [hdst] at h; cases h
  have hd2 : fs dst ≠ FNode.dir := fun h => by rw [hdst] at h; cases h
  by_cases hr : ¬ f.renameFails = true ∧ fs src ≠ FNode.missing
  · have hmv : moveFileM fs f src dst
        = (setNode (setNode fs dst (fs src)) src FNode.missing, true) := by
      rw [moveFileM, if_pos hr]
    rw [hmv]
    refine ⟨?_, ?_, ?_⟩
    · rintro ⟨⟨a, hsa⟩, -⟩
      rw [show (setNode (setNode fs dst (fs src)) src FNode.missing, true).1
          = setNode (setNode fs dst (fs src)) src FNode.missing from rfl,
        setNode_self] at hsa
      cases hsa
    · intro h; cases h
    · intro _; exact setNode_self _ _ _
  · cases hcp : copyF fs src dst with
    | none =>
      have hmv : moveFileM fs f src dst = (fs, false) := by
        rw [moveFileM, if_neg hr]
        cases hcf : f.copyFails
        · simp only [Bool.false_eq_true, if_false, hcp]
        · simp only [if_true]
      rw [hmv]
      refine ⟨?_, fun _ => ⟨rfl, hdst⟩, fun hh => by cases hh⟩
      rintro ⟨-, b, hb⟩
      rw [show ((fs, false) : FS × Bool).1 = fs from rfl, hdst] at hb
      cases hb
    | some fs1 =>
      obtain ⟨d, hsr, rfl⟩ := copyF_spec fs src dst hd1 hd2 fs1 hcp
      cases hcf : f.copyFails with
      | true =>
        have hmv : moveFileM fs f src dst = (fs, false) := by
          rw [moveFileM, if_neg hr]
          simp only [hcf, if_true]
        rw [hmv]
        refine ⟨?_, fun _ => ⟨rfl, hdst⟩, fun hh => by cases hh⟩
        rintro ⟨-, b, hb⟩
        rw [show ((fs, false) : FS × Bool).1 = fs from rfl, hdst] at hb
        cases hb
      | false =>
        cases hdf : f.deleteFails with
        | true =>
          have hmv : moveFileM fs f src dst
              = (setNode (setNode fs dst (FNode.file d)) dst FNode.missing, false) := by
            rw [moveFileM, if_neg hr]
            simp only [hcf, Bool.false_eq_true, if_false, hcp, hdf, if_true]
          rw [hmv]
          refine ⟨?_, ?_, ?_⟩
          · rintro ⟨-, ⟨b, hb⟩⟩
            rw [show (setNode (setNode fs dst (FNode.file d)) dst FNode.missing, false).1
                = setNode (setNode fs dst (FNode.file d)) dst FNode.missing from rfl,
              setNode_self] at hb
            cases hb
          · intro _
            constructor
            · rw [show (setNode (setNode fs dst (FNode.file d)) dst FNode.missing, false).1
                  = setNode (setNode fs dst (FNode.file d)) dst FNode.missing from rfl,
                setNode_other _ _ _ _ hne, setNode_other _ _ _ _ hne]
            · exact setNode_self _ _ _
          · intro hh; cases hh
        | false =>
          have hmv : moveFileM fs f src dst
              = (setNode (setNode fs dst (FNode.file d)) src FNode.missing, true) := by
            rw [moveFileM, if_neg hr]
            simp only [hcf, Bool.false_eq_true, if_false, hcp, hdf]
          rw [hmv]
          refine ⟨?_, ?_, ?_⟩
          · rintro ⟨⟨a, hsa⟩, -⟩
            rw [show (setNode (setNode fs dst (FNode.file d)) src FNode.missing, true).1
                = setNode (setNode fs dst (FNode.file d)) src FNode.missing from rfl,
              setNode_self] at hsa
            cases hsa
          · intro hh; cases hh
          · intro _; exact setNode_self _ _ _

theorem c3_moveFile_witness :
    ((gs "/a" : GoStr) ≠ gs "/b")
    ∧ ((fun q => if q = gs "/a" then FNode.file 9 else FNode.missing) (gs "/b") = FNode.missing)
    ∧ ¬ ((∃ a, (moveFileM (fun q => if q = gs "/a" then FNode.file 9 else FNode.missing)
          (MoveFaults.mk true false true) (gs "/a") (gs "/b")).1 (gs "/a") = FNode.file a)
        ∧ (∃ b, (moveFileM (fun q => if q = gs "/a" then FNode.file 9 else FNode.missing)
          (MoveFaults.mk true false true) (gs "/a") (gs "/b")).1 (gs "/b") = FNode.file b)) :=
  ⟨by decide, by decide,
    (c3_moveFile_never_both _ (MoveFaults.mk true false true) _ _ (by decide) (by decide)).1⟩

end Dotsync

namespace Dotsync

/-- Claim C5 (amended): when Create(linkPath, target) succeeds and the target
of the fresh symlink is reachable (stat through the link succeeds), an
immediately following Check(linkPath, target) reports Linked.  Without the
reachability condition the round-trip fails: Create happily creates dangling
symlinks, which Check classifies as Broken. -/
theorem c5_create_check_roundtrip (fs : FS) (cwd linkPath target : GoStr)
    (hok : (createLink fs linkPath target).2 = true)
    (hreach : ∃ n, statResolve (createLink fs linkPath target).1 linkPath
      = StatRes.found n) :
    check (createLink fs linkPath target).1 cwd linkPath target
      = some (Status.linked, target) := by
  obtain ⟨n, hn⟩ := hreach
  have hmiss : fs linkPath = FNode.missing := by
    cases h : fs linkPath
    · rfl
    all_goals (rw [createLink, h] at hok; cases hok)
  have hset : (createLink fs linkPath target).1 = setNode fs linkPath (.symlink target) := by
    rw [createLink, hmiss]
  rw [hset] at hn ⊢
  rw [check, setNode_self, hn]
  simp

theorem c5_roundtrip_witness :
    ((createLink (fun p => if p = gs "/t" then FNode.file 1 else FNode.missing)
        (gs "/l") (gs "/t")).2 = true)
    ∧ check (createLink (fun p => if p = gs "/t" then FNode.file 1 else FNode.missing)
        (gs "/l") (gs "/t")).1 (gs "/") (gs "/l") (gs "/t")
      = some (Status.linked, gs "/t") :=
  ⟨by decide, c5_create_check_roundtrip _ (gs "/") (gs "/l") (gs "/t") (by decide)
    ⟨FNode.file 1, by decide⟩⟩

/-- Claim C5 counterexample: on an empty filesystem Create("/l", "/t")
succeeds, yet the immediate Check reports Broken, not Linked, because the
target does not exist — refuting the unconditional round-trip. -/
theorem c5_counterexample :
    ((createLink (fun _ => FNode.missing) (gs "/l") (gs "/t")).2 = true)
    ∧ check (createLink (fun _ => FNode.missing) (gs "/l") (gs "/t")).1 (gs "/")
        (gs "/l") (gs "/t") = some (Status.broken, gs "/t")
    ∧ check (createLink (fun _ => FNode.missing) (gs "/l") (gs "/t")).1 (gs "/")
        (gs "/l") (gs "/t") ≠ some (Status.linked, gs "/t") := by
  decide

end Dotsync

namespace Dotsync

/-- Claim C2 (amended): Check classifies every (linkPath, expectedTarget) pair
into exactly one of five statuses — NotExist when nothing is at linkPath,
NotLinked when a non-symlink exists there, Broken when linkPath is a symlink
and stat through the link reports not-exist regardless of the literal target,
Linked when it is a symlink whose reachable target matches exactly or after
absolute-path normalization, Incorrect when it is a symlink with a reachable
target that does not match — except that a stat failure other than not-exist
(a symlink loop) is returned as an error, not as a status.  Reachability is
decided strictly before target-equality. -/
theorem c2_check_characterization (fs : FS) (cwd linkPath expected : GoStr) :
    (check fs cwd linkPath expected = some (Status.notExist, [])
      ↔ fs linkPath = FNode.missing)
  ∧ (check fs cwd linkPath expected = some (Status.notLinked, [])
      ↔ ((∃ d, fs linkPath = FNode.file d) ∨ fs linkPath = FNode.dir))
  ∧ (∀ a, fs linkPath = FNode.symlink a →
      ((check fs cwd linkPath expected = some (Status.broken, a)
          ↔ statResolve fs linkPath = StatRes.notExist)
      ∧ (check fs cwd linkPath expected = some (Status.linked, a)
          ↔ ((∃ n, statResolve fs linkPath = StatRes.found n)
            ∧ (a = expected ∨ absPathOf cwd expected = absPathOf cwd a)))
      ∧ (check fs cwd linkPath expected = some (Status.incorrect, a)
          ↔ ((∃ n, statResolve fs linkPath = StatRes.found n)
            ∧ ¬ (a = expected ∨ absPathOf cwd expected = absPathOf cwd a)))
      ∧ (check fs cwd linkPath expected = none
          ↔ statResolve fs linkPath = StatRes.errLoop))) := by
  refine ⟨?_, ?_, ?_⟩
  · cases h : fs linkPath with
    | missing => simp [check, h]
    | file d => simp [check, h]
    | dir => simp [check, h]
    | symlink a =>
      cases hs : statResolve fs linkPath with
      | found n =>
        by_cases hc : a ≠ expected ∧ absPathOf cwd expected ≠ absPathOf cwd a
        · simp [check, h, hs, hc]
        · simp [check, h, hs, hc]
      | notExist => simp [check, h, hs]
      | errLoop => simp [check, h, hs]
  · cases h : fs linkPath with
    | missing => simp [check, h]
    | file d => simp [check, h]
    | dir => simp [check, h]
    | symlink a =>
      cases hs : statResolve fs linkPath with
      | found n =>
        by_cases hc : a ≠ expected ∧ absPathOf cwd expected ≠ absPathOf cwd a
        · simp [check, h, hs, hc]
        · simp [check, h, hs, hc]
      | notExist => simp [check, h, hs]
      | errLoop => simp [check, h, hs]
  · intro a ha
    refine ⟨?_, ?_, ?_, ?_⟩ <;>
      (cases hs : statResolve fs linkPath with
      | found n =>
        by_cases hc : a ≠ expected ∧ absPathOf cwd expected ≠ absPathOf cwd a
        · simp [check, ha, hs, hc]
          try tauto
        · simp [check, ha, hs, hc]
          try tauto
      | notExist => simp [check, ha, hs]
      | errLoop => simp [check, ha, hs])

theorem c2_check_witness :
    ((fun p => if p = gs "/l" then FNode.symlink (gs "/t") else FNode.missing) (gs "/l")
        = FNode.symlink (gs "/t"))
    ∧ check (fun p => if p = gs "/l" then FNode.symlink (gs "/t") else FNode.missing)
        (gs "/") (gs "/l") (gs "/t") = some (Status.broken, gs "/t") :=
  ⟨by decide,
    ((c2_check_characterization _ (gs "/") (gs "/l") (gs "/t")).2.2 (gs "/t")
      (by decide)).1.mpr (by decide)⟩

/-- Claim C2 counterexample: a self-loop symlink is a symlink whose target
cannot be stat-ed, yet Check returns an error rather than any of the five
statuses (in particular not Broken) — so the claim that Check always returns
one of five statuses, with Broken whenever the target cannot be stat-ed,
fails on this input. -/
theorem c2_counterexample :
    ((fun p => if p = gs "/l" then FNode.symlink (gs "/l") else FNode.missing) (gs "/l")
        = FNode.symlink (gs "/l"))
    ∧ check (fun p => if p = gs "/l" then FNode.symlink (gs "/l") else FNode.missing)
        (gs "/") (gs "/l") (gs "/t") = none
    ∧ check (fun p => if p = gs "/l" then FNode.symlink (gs "/l") else FNode.missing)
        (gs "/") (gs "/l") (gs "/t") ≠ some (Status.broken, gs "/l") := by
  decide

end Dotsync

namespace Dotsync

/-- Claim C8: the link-conflict decision resolves to backup for every input in
automatic-backup mode without consulting the user; interactively, the
recognized inputs map onto the three pairwise-distinct outcomes backup, skip
and abort, and every unrecognized input resolves to skip — never to backup
and never to abort. -/
theorem c8_conflict_decision (resp : GoStr) :
    promptConflictAction true resp = ConflictAction.backup
  ∧ ((trimSpace (toLowerStr resp) = gs "b" ∨ trimSpace (toLowerStr resp) = gs "backup") →
      promptConflictAction false resp = ConflictAction.backup)
  ∧ ((trimSpace (toLowerStr resp) = gs "s" ∨ trimSpace (toLowerStr resp) = gs "skip") →
      promptConflictAction false resp = ConflictAction.skip)
  ∧ ((trimSpace (toLowerStr resp) = gs "a" ∨ trimSpace (toLowerStr resp) = gs "abort") →
      promptConflictAction false resp = ConflictAction.abort)
  ∧ ((trimSpace (toLowerStr resp) ≠ gs "b" ∧ trimSpace (toLowerStr resp) ≠ gs "backup"
      ∧ trimSpace (toLowerStr resp) ≠ gs "s" ∧ trimSpace (toLowerStr resp) ≠ gs "skip"
      ∧ trimSpace (toLowerStr resp) ≠ gs "a" ∧ trimSpace (toLowerStr resp) ≠ gs "abort") →
      promptConflictAction false resp = ConflictAction.skip)
  ∧ (ConflictAction.backup ≠ ConflictAction.skip
     ∧ ConflictAction.backup ≠ ConflictAction.abort
     ∧ ConflictAction.skip ≠ ConflictAction.abort) := by
  refine ⟨rfl, ?_, ?_, ?_, ?_, by decide, by decide, by decide⟩
  · rintro (h | h) <;> (simp only [promptConflictAction]; rw [h]; decide)
  · rintro (h | h) <;> (simp only [promptConflictAction]; rw [h]; decide)
  · rintro (h | h) <;> (simp only [promptConflictAction]; rw [h]; decide)
  · rintro ⟨h1, h2, h3, h4, h5, h6⟩
    simp [promptConflictAction, h1, h2, h3, h4, h5, h6]

theorem c8_conflict_witness :
    (trimSpace (toLowerStr (gs "zzz\n")) ≠ gs "b"
     ∧ trimSpace (toLowerStr (gs "zzz\n")) ≠ gs "backup"
     ∧ trimSpace (toLowerStr (gs "zzz\n")) ≠ gs "s"
     ∧ trimSpace (toLowerStr (gs "zzz\n")) ≠ gs "skip"
     ∧ trimSpace (toLowerStr (gs "zzz\n")) ≠ gs "a"
     ∧ trimSpace (toLowerStr (gs "zzz\n")) ≠ gs "abort")
    ∧ promptConflictAction false (gs "zzz\n") = ConflictAction.skip :=
  ⟨by decide, (c8_conflict_decision (gs "zzz\n")).2.2.2.2.1 (by decide)⟩

theorem lookupEntry_setEntry_self (es : List (GoStr × Entry)) (name : GoStr) (e : Entry) :
    lookupEntry (setEntry es name e) name = some e := by
  induction es with
  | nil => simp [setEntry, lookupEntry]
  | cons pr rest ih =>
    obtain ⟨n, e0⟩ := pr
    by_cases h : n = name
    · simp [setEntry, lookupEntry, h]
    · simp [setEntry, lookupEntry, h, ih]

theorem lookupEntry_setEntry_other (es : List (GoStr × Entry)) (name n2 : GoStr) (e : Entry)
    (h : n2 ≠ name) :
    lookupEntry (setEntry es name e) n2 = lookupEntry es n2 := by
  induction es with
  | nil =>
    simp [setEntry, lookupEntry]
    intro hh
    exact absurd hh.symm h
  | cons pr rest ih =>
    obtain ⟨n, e0⟩ := pr
    by_cases hn : n = name
    · subst hn
      simp [setEntry, lookupEntry, Ne.symm h]
    · simp [setEntry, lookupEntry, hn, ih]

/-- Claim C9: Manifest.AddFile modifies at most the file list of the named
entry: when relPath is already tracked there it returns false and leaves the
manifest completely unchanged; otherwise it returns true and appends relPath
at the end of that entry's files, keeping the stored root of an existing
entry (the root argument is ignored), keeping the version, and leaving every
other entry untouched. -/
theorem c9_addFile_frame (m : Manifest) (name root relPath : GoStr) :
    (∀ e, lookupEntry m.entries name = some e → relPath ∈ e.files →
      addFile m name root relPath = (false, m))
  ∧ (∀ e, lookupEntry m.entries name = some e → relPath ∉ e.files →
      (addFile m name root relPath).1 = true
      ∧ lookupEntry (addFile m name root relPath).2.entries name
          = some (Entry.mk e.root (e.files ++ [relPath]))
      ∧ (addFile m name root relPath).2.version = m.version
      ∧ ∀ n, n ≠ name →
          lookupEntry (addFile m name root relPath).2.entries n = lookupEntry m.entries n)
  ∧ (lookupEntry m.entries name = none →
      (addFile m name root relPath).1 = true
      ∧ lookupEntry (addFile m name root relPath).2.entries name
          = some (Entry.mk root [relPath])
      ∧ (addFile m name root relPath).2.version = m.version
      ∧ ∀ n, n ≠ name →
          lookupEntry (addFile m name root relPath).2.entries n = lookupEntry m.entries n) := by
  refine ⟨?_, ?_, ?_⟩
  · intro e he hmem
    simp [addFile, he, hmem]
  · intro e he hmem
    refine ⟨by simp [addFile, he, hmem], ?_, by simp [addFile, he, hmem], ?_⟩
    · simp [addFile, he, hmem, lookupEntry_setEntry_self]
    · intro n hn
      simp [addFile, he, hmem, lookupEntry_setEntry_other _ _ _ _ hn]
  · intro he
    refine ⟨by simp [addFile, he], ?_, by simp [addFile, he], ?_⟩
    · simp [addFile, he, lookupEntry_setEntry_self]
    · intro n hn
      simp [addFile, he, lookupEntry_setEntry_other _ _ _ _ hn]

theorem c9_addFile_witness :
    (lookupEntry (Manifest.mk 1 [(gs "zsh", Entry.mk (gs "~") [gs ".zshrc"])]).entries
        (gs "zsh") = some (Entry.mk (gs "~") [gs ".zshrc"]))
    ∧ ((gs ".zprofile" : GoStr) ∉ (Entry.mk (gs "~") [gs ".zshrc"]).files)
    ∧ lookupEntry (addFile (Manifest.mk 1 [(gs "zsh", Entry.mk (gs "~") [gs ".zshrc"])])
        (gs "zsh") (gs "/ignored") (gs ".zprofile")).2.entries (gs "zsh")
      = some (Entry.mk (gs "~") ([gs ".zshrc"] ++ [gs ".zprofile"])) :=
  ⟨by decide, by decide,
    ((c9_addFile_frame (Manifest.mk 1 [(gs "zsh", Entry.mk (gs "~") [gs ".zshrc"])])
      (gs "zsh") (gs "/ignored") (gs ".zprofile")).2.1 (Entry.mk (gs "~") [gs ".zshrc"])
      (by decide) (by decide)).2.1⟩

end Dotsync

namespace Dotsync

/-- Claim C4 evaluation at the failing input: the overlap detection of
CheckEntryConflict is not symmetric.  With home /home/u and a manifest whose
only entry is config with root tilde-slash-.config, classifying
/home/u/.config/foo/file.txt (inferred root tilde-slash-.config/foo, a strict
descendant) reports NO conflict, because the first loop returns early when the
path falls under an existing root; in the mirror situation — manifest entry
foo with root tilde-slash-.config/foo and path /home/u/.config/bar with
inferred root tilde-slash-.config, a strict ancestor — the conflict with foo
IS reported.  The first conjunct exhibits the violation of the claimed
symmetry; the second shows the direction that works. -/
theorem c4_overlap_not_symmetric :
    checkEntryConflict (gs "/home/u") false (gs "/home/u/.config/foo/file.txt") []
      (Manifest.mk 1 [(gs "config", Entry.mk (gs "~/.config") [])]) = ([] : GoStr)
    ∧ checkEntryConflict (gs "/home/u") false (gs "/home/u/.config/bar") []
      (Manifest.mk 1 [(gs "foo", Entry.mk (gs "~/.config/foo") [])]) = gs "foo"
    ∧ (([] : GoStr) ≠ gs "config") := by
  decide

/-- Claim C7 (amended): a run of Unlink never mutates the stored manifest, and
for a file whose link status is Linked or Incorrect and whose cloud copy
exists as a regular file, unlinkFile removes the symlink and copies — does not
move — the cloud file back, so afterwards the storage copy still exists and
its content equals the restored local copy's content.  When the cloud copy is
missing (possible only in the Incorrect case) the symlink is removed with a
warning and nothing is copied. -/
theorem c7_unlink_preserves (cwd : GoStr) :
    (∀ (home storagePath : GoStr) (w : World),
      (runUnlink cwd home storagePath w).storedManifest = w.storedManifest)
  ∧ (∀ (fs : FS) (orig cloud : GoStr) (st : Status) (t : GoStr) (d : Nat),
      check fs cwd orig cloud = some (st, t) →
      (st = Status.linked ∨ st = Status.incorrect) →
      fs cloud = FNode.file d →
      (unlinkFile fs cwd orig cloud).1 = UnlinkResult.unlinked
      ∧ (unlinkFile fs cwd orig cloud).2 orig = FNode.file d
      ∧ (unlinkFile fs cwd orig cloud).2 cloud = FNode.file d) := by
  constructor
  · intro home storagePath w
    rfl
  · intro fs orig cloud st t d hchk hst hcl
    have horig : ∃ a, fs orig = FNode.symlink a := by
      cases h : fs orig with
      | symlink a => exact ⟨a, rfl⟩
      | missing =>
        exfalso
        rw [check, h] at hchk
        simp only [Option.some.injEq, Prod.mk.injEq] at hchk
        rcases hst with h2 | h2 <;> (rw [h2] at hchk; exact absurd hchk.1 (by decide))
      | file e =>
        exfalso
        rw [check, h] at hchk
        simp only [Option.some.injEq, Prod.mk.injEq] at hchk
        rcases hst with h2 | h2 <;> (rw [h2] at hchk; exact absurd hchk.1 (by decide))
      | dir =>
        exfalso
        rw [check, h] at hchk
        simp only [Option.some.injEq, Prod.mk.injEq] at hchk
        rcases hst with h2 | h2 <;> (rw [h2] at hchk; exact absurd hchk.1 (by decide))
    obtain ⟨a, ha⟩ := horig
    have hne : orig ≠ cloud := by
      intro he
      rw [he, hcl] at ha
      cases ha
    have hu : unlinkFile fs cwd orig cloud = doUnlink fs orig cloud := by
      rw [unlinkFile, hchk]
      rcases hst with h2 | h2 <;> rw [h2]
    have hstatc : statResolve fs cloud = StatRes.found (FNode.file d) :=
      statResolve_file fs cloud d hcl
    have hrm : removeLink fs orig = (setNode fs orig FNode.missing, true) := by
      rw [removeLink, ha]
    have hcopy : copyF (setNode fs orig FNode.missing) cloud orig
        = some (setNode (setNode fs orig FNode.missing) orig (FNode.file d)) := by
      apply copyF_eq
      · rw [statResolve_unfold, statResolveFuel_succ, setNode_other _ _ _ _ (Ne.symm hne), hcl]
      · intro u hh
        rw [setNode_self] at hh
        cases hh
      · intro hh
        rw [setNode_self] at hh
        cases hh
    rw [hu, doUnlink]
    simp only [hstatc, hrm, hcopy]
    rw [if_neg (fun hh => StatRes.noConfusion hh : ¬ (StatRes.found (FNode.file d) = StatRes.notExist))]
    refine ⟨rfl, ?_, ?_⟩
    · exact setNode_self _ _ _
    · show setNode (setNode fs orig FNode.missing) orig (FNode.file d) cloud = FNode.file d
      rw [setNode_other _ _ _ _ (Ne.symm hne), setNode_other _ _ _ _ (Ne.symm hne), hcl]

end Dotsync

namespace Dotsync

theorem c7_unlink_witness :
    (check (fun p => if p = gs "/h/.z" then FNode.symlink (gs "/c/z")
        else if p = gs "/c/z" then FNode.file 5 else FNode.missing)
      (gs "/") (gs "/h/.z") (gs "/c/z") = some (Status.linked, gs "/c/z"))
    ∧ ((Status.linked = Status.linked ∨ Status.linked = Status.incorrect))
    ∧ ((fun p => if p = gs "/h/.z" then FNode.symlink (gs "/c/z")
        else if p = gs "/c/z" then FNode.file 5 else FNode.missing) (gs "/c/z")
      = FNode.file 5)
    ∧ ((unlinkFile (fun p => if p = gs "/h/.z" then FNode.symlink (gs "/c/z")
          else if p = gs "/c/z" then FNode.file 5 else FNode.missing)
        (gs "/") (gs "/h/.z") (gs "/c/z")).1 = UnlinkResult.unlinked
      ∧ (unlinkFile (fun p => if p = gs "/h/.z" then FNode.symlink (gs "/c/z")
          else if p = gs "/c/z" then FNode.file 5 else FNode.missing)
        (gs "/") (gs "/h/.z") (gs "/c/z")).2 (gs "/h/.z") = FNode.file 5
      ∧ (unlinkFile (fun p => if p = gs "/h/.z" then FNode.symlink (gs "/c/z")
          else if p = gs "/c/z" then FNode.file 5 else FNode.missing)
        (gs "/") (gs "/h/.z") (gs "/c/z")).2 (gs "/c/z") = FNode.file 5) :=
  ⟨by decide, Or.inl rfl, by decide,
    (c7_unlink_preserves (gs "/")).2 _ (gs "/h/.z") (gs "/c/z") Status.linked (gs "/c/z") 5
      (by decide) (Or.inl rfl) (by decide)⟩

/-- Claim C7 counterexample: the original path is a symlink classified
Incorrect (it points at /wrong, which exists), but the expected cloud copy is
missing.  unlinkFile reports a successful unlink, yet nothing was copied back:
afterwards neither the original location nor the storage location holds the
file — refuting the claim that every Linked-or-Incorrect file is restored by
copying the cloud file. -/
theorem c7_counterexample :
    (check (fun p => if p = gs "/h/.z" then FNode.symlink (gs "/wrong")
        else if p = gs "/wrong" then FNode.file 7 else FNode.missing)
      (gs "/") (gs "/h/.z") (gs "/c/z") = some (Status.incorrect, gs "/wrong"))
    ∧ ((unlinkFile (fun p => if p = gs "/h/.z" then FNode.symlink (gs "/wrong")
          else if p = gs "/wrong" then FNode.file 7 else FNode.missing)
        (gs "/") (gs "/h/.z") (gs "/c/z")).1 = UnlinkResult.unlinked)
    ∧ ((unlinkFile (fun p => if p = gs "/h/.z" then FNode.symlink (gs "/wrong")
          else if p = gs "/wrong" then FNode.file 7 else FNode.missing)
        (gs "/") (gs "/h/.z") (gs "/c/z")).2 (gs "/h/.z") = FNode.missing)
    ∧ ((unlinkFile (fun p => if p = gs "/h/.z" then FNode.symlink (gs "/wrong")
          else if p = gs "/wrong" then FNode.file 7 else FNode.missing)
        (gs "/") (gs "/h/.z") (gs "/c/z")).2 (gs "/c/z") = FNode.missing) := by
  decide

end Dotsync

namespace Dotsync

theorem startsWith_append (a b : GoStr) : startsWith a (a ++ b) = true := by
  induction a with
  | nil => rfl
  | cons c cs ih => simp [startsWith, ih]

theorem splitOnChar_not_mem (sep : Char) (l : GoStr) (h : sep ∉ l) :
    splitOnChar sep l = [l] := by
  induction l with
  | nil => rfl
  | cons c cs ih =>
    have hc : ¬ c = sep := fun hh => h (hh ▸ List.mem_cons_self c cs)
    have hcs : sep ∉ cs := fun hh => h (List.mem_cons_of_mem c hh)
    rw [splitOnChar, if_neg hc, ih hcs]
    rfl

theorem splitOnChar_append_sep (sep : Char) (a b : GoStr) (h : sep ∉ a) :
    splitOnChar sep (a ++ sep :: b) = a :: splitOnChar sep b := by
  induction a with
  | nil => simp [splitOnChar]
  | cons c cs ih =>
    have hc : ¬ c = sep := fun hh => h (hh ▸ List.mem_cons_self c cs)
    have hcs : sep ∉ cs := fun hh => h (List.mem_cons_of_mem c hh)
    show splitOnChar sep (c :: (cs ++ sep :: b)) = (c :: cs) :: splitOnChar sep b
    rw [splitOnChar, if_neg hc, ih hcs]
    rfl

theorem clean_home_dotfile (X : GoStr) (h0 : X ≠ []) (h1 : X ≠ ['.'])
    (hs : ('/' : Char) ∉ X) :
    clean (gs "/home/u" ++ '/' :: '.' :: X) = gs "/home/u" ++ '/' :: '.' :: X := by
  have hdot : ('/' : Char) ∉ ('.' :: X) := by
    intro hh
    rcases List.mem_cons.mp hh with h2 | h2
    · cases h2
    · exact hs h2
  have hsplit : splitOnChar '/' (gs "/home/u" ++ '/' :: '.' :: X)
      = [[], gs "home", gs "u", '.' :: X] := by
    rw [show gs "/home/u" ++ '/' :: '.' :: X
        = ([] : GoStr) ++ '/' :: (gs "home" ++ '/' :: (gs "u" ++ '/' :: ('.' :: X))) from rfl,
      splitOnChar_append_sep _ _ _ (by decide),
      splitOnChar_append_sep _ _ _ (by decide),
      splitOnChar_append_sep _ _ _ (by decide),
      splitOnChar_not_mem '/' _ hdot]
  have habs : isAbsPath (gs "/home/u" ++ '/' :: '.' :: X) = true := rfl
  have hnn : ('.' :: X) ≠ [] := by simp
  have hnd : ('.' :: X) ≠ gs "." := by
    intro hh
    injection hh with hh1 hh2
    exact h0 hh2
  have hndd : ('.' :: X) ≠ gs ".." := by
    intro hh
    injection hh with hh1 hh2
    exact h1 hh2
  have hstep : cleanStep true [gs "home", gs "u"] ('.' :: X)
      = [gs "home", gs "u", '.' :: X] := by
    rw [cleanStep, if_neg (by rintro (hh | hh); exacts [hnn hh, hnd hh]), if_neg hndd]
    rfl
  rw [clean]
  simp only [habs, hsplit]
  rw [show List.foldl (cleanStep true) [] [[], gs "home", gs "u", '.' :: X]
      = cleanStep true (cleanStep true (cleanStep true (cleanStep true [] [])
        (gs "home")) (gs "u")) ('.' :: X) from rfl]
  rw [show cleanStep true (cleanStep true (cleanStep true [] []) (gs "home")) (gs "u")
      = [gs "home", gs "u"] from by decide]
  rw [hstep]
  rfl

theorem rel_home_dotfile (X : GoStr) (h0 : X ≠ []) (h1 : X ≠ ['.'])
    (hs : ('/' : Char) ∉ X) :
    relPathOpt (gs "/home/u") (gs "/home/u" ++ '/' :: '.' :: X) = some ('.' :: X) := by
  have hdot : ('/' : Char) ∉ ('.' :: X) := by
    intro hh
    rcases List.mem_cons.mp hh with h2 | h2
    · cases h2
    · exact hs h2
  have hsplit : splitOnChar '/' (gs "/home/u" ++ '/' :: '.' :: X)
      = [[], gs "home", gs "u", '.' :: X] := by
    rw [show gs "/home/u" ++ '/' :: '.' :: X
        = ([] : GoStr) ++ '/' :: (gs "home" ++ '/' :: (gs "u" ++ '/' :: ('.' :: X))) from rfl,
      splitOnChar_append_sep _ _ _ (by decide),
      splitOnChar_append_sep _ _ _ (by decide),
      splitOnChar_append_sep _ _ _ (by decide),
      splitOnChar_not_mem '/' _ hdot]
  have hclean : clean (gs "/home/u" ++ '/' :: '.' :: X) = gs "/home/u" ++ '/' :: '.' :: X :=
    clean_home_dotfile X h0 h1 hs
  have hnd2 : gs "/home/u" ++ '/' :: '.' :: X ≠ gs "." := by
    intro hh
    cases hh
  have hfilt : List.filter (fun x => x ≠ ([] : GoStr)) [[], gs "home", gs "u", '.' :: X]
      = [gs "home", gs "u", '.' :: X] := by
    simp only [List.filter_cons]
    rw [show (decide (([] : GoStr) ≠ [])) = false from by decide,
      show (decide ((gs "home" : GoStr) ≠ [])) = true from by decide,
      show (decide ((gs "u" : GoStr) ≠ [])) = true from by decide,
      show (decide (('.' :: X) ≠ [])) = true from by simp]
    rfl
  rw [relPathOpt]
  simp only [hclean, hsplit, hfilt]
  rw [show clean (gs "/home/u") = gs "/home/u" from by decide]
  rw [if_neg (by intro hh; exact hh rfl)]
  rw [if_neg (by decide : ¬ ((gs "/home/u" : GoStr) = gs "."))]
  rw [if_neg hnd2]
  rw [show splitOnChar '/' (gs "/home/u") = [[], gs "home", gs "u"] from by decide]
  rw [show List.filter (fun x => x ≠ ([] : GoStr)) [[], gs "home", gs "u"]
      = [gs "home", gs "u"] from by decide]
  rw [show dropCommon [gs "home", gs "u"] [gs "home", gs "u", '.' :: X]
      = (([] : List GoStr), ['.' :: X]) from by
    rw [dropCommon, if_pos rfl, dropCommon, if_pos rfl]
    rfl]
  rfl

/-- Claim C6 (amended): for every absolute path home/.X that is a single
hidden file directly in the home directory (X nonempty, not itself a dot, and
containing no path separator), InferFromPath infers root ~ (the home directory
in portable form), relative path .X, and name X with the leading dot stripped
and a trailing rc suffix stripped — except when stripping rc would leave the
name empty (the path home/.rc), in which case the name stays X unchanged.  In
particular home/.zshrc infers name zsh, root ~, relative path .zshrc. -/
theorem c6_infer_dotfile (X : GoStr) (h0 : X ≠ []) (h1 : X ≠ ['.'])
    (hs : ('/' : Char) ∉ X) :
    inferFromPath (gs "/home/u") false (gs "/home/u" ++ '/' :: '.' :: X)
      = some (InferResult.mk
          (if trimSfx X (gs "rc") = [] then X else trimSfx X (gs "rc"))
          (gs "~") ('.' :: X)) := by
  have hdot : ('/' : Char) ∉ ('.' :: X) := by
    intro hh
    rcases List.mem_cons.mp hh with h2 | h2
    · cases h2
    · exact hs h2
  have hclean : clean (gs "/home/u" ++ '/' :: '.' :: X) = gs "/home/u" ++ '/' :: '.' :: X :=
    clean_home_dotfile X h0 h1 hs
  have hrel : relPathOpt (gs "/home/u") (gs "/home/u" ++ '/' :: '.' :: X) = some ('.' :: X) :=
    rel_home_dotfile X h0 h1 hs
  have hsp2 : splitOnChar '/' ('.' :: X) = ['.' :: X] := splitOnChar_not_mem '/' _ hdot
  have htrim : trimPfx ('.' :: X) (gs ".") = X := by
    rw [trimPfx, if_pos]
    · rfl
    · show startsWith ['.'] ('.' :: X) = true
      simp [startsWith]
  rw [inferFromPath]
  simp only [hclean, hrel, hsp2]
  rw [startsWith_append]
  simp only [Bool.true_eq_false, if_false]
  rw [if_neg (by simp)]
  rw [if_neg (by rintro ⟨-, hle⟩; simp at hle)]
  rw [if_neg (by rintro ⟨hh, -⟩; cases hh)]
  rw [if_neg (by rintro ⟨-, hle⟩; simp at hle)]
  rw [if_pos ⟨(by rw [show List.getD ['.' :: X] 0 [] = '.' :: X from rfl]; simp [startsWith, show (gs "." : GoStr) = ['.'] from rfl]), rfl⟩]
  rw [show List.getD ['.' :: X] 0 [] = '.' :: X from rfl, htrim]

theorem c6_infer_witness :
    ((gs "zshrc" : GoStr) ≠ [])
    ∧ ((gs "zshrc" : GoStr) ≠ ['.'])
    ∧ (('/' : Char) ∉ (gs "zshrc" : GoStr))
    ∧ inferFromPath (gs "/home/u") false (gs "/home/u" ++ '/' :: '.' :: gs "zshrc")
      = some (InferResult.mk (gs "zsh") (gs "~") (gs ".zshrc")) :=
  ⟨by decide, by decide, by decide, by
    rw [c6_infer_dotfile (gs "zshrc") (by decide) (by decide) (by decide)]
    decide⟩

/-- Claim C6 counterexample: for the path home/.rc the claim requires the name
to be rc with its trailing rc suffix stripped, which is the empty string; the
code instead falls back to keeping rc when stripping would leave the name
empty, so InferFromPath returns name rc, refuting the unconditional
strip-trailing-rc rule. -/
theorem c6_counterexample :
    inferFromPath (gs "/home/u") false (gs "/home/u/.rc")
      = some (InferResult.mk (gs "rc") (gs "~") (gs ".rc"))
    ∧ trimSfx (gs "rc") (gs "rc") = ([] : GoStr)
    ∧ (gs "rc" : GoStr) ≠ ([] : GoStr) := by
  decide

end Dotsync

namespace Dotsync

/-- Characterization of the destructive tail of runAdd under every fault
injection: it either fails leaving the filesystem exactly as it was, or
succeeds leaving the moved file in storage, a symlink at the original
location, and no backup file. -/
theorem runAddTail_cases (fs : FS) (fl : AddFaults) (absPath destPath bkPath : GoStr)
    (d : Nat)
    (h1 : absPath ≠ destPath) (h2 : absPath ≠ bkPath) (h3 : destPath ≠ bkPath)
    (ha : fs absPath = FNode.file d) (hd : fs destPath = FNode.missing)
    (hb : fs bkPath = FNode.missing) :
    runAddTail fs fl absPath destPath bkPath = (fs, false)
    ∨ runAddTail fs fl absPath destPath bkPath
      = (setNode (setNode (setNode (setNode (setNode fs bkPath (FNode.file d)) destPath
          (FNode.file d)) absPath FNode.missing) absPath (FNode.symlink destPath))
          bkPath FNode.missing, true) := by
  have hstat : statResolve fs destPath = StatRes.notExist := statResolve_missing _ _ hd
  have hbkcopy : copyF fs absPath bkPath = some (setNode fs bkPath (FNode.file d)) :=
    copyF_eq fs absPath bkPath d (statResolve_file _ _ _ ha)
      (fun t hh => by rw [hb] at hh; cases hh) (by rw [hb]; intro hh; cases hh)
  have f1a : setNode fs bkPath (FNode.file d) absPath = FNode.file d := by
    rw [setNode_other _ _ _ _ h2, ha]
  have f1d : setNode fs bkPath (FNode.file d) destPath = FNode.missing := by
    rw [setNode_other _ _ _ _ h3, hd]
  have f1b : setNode fs bkPath (FNode.file d) bkPath = FNode.file d := setNode_self _ _ _
  have f1oth : ∀ q, q ≠ bkPath → setNode fs bkPath (FNode.file d) q = fs q :=
    fun q hq => setNode_other _ _ _ _ hq
  have hrb : ∀ g : FS, g absPath = FNode.file d → g destPath = FNode.missing →
      g bkPath = FNode.file d → (∀ q, q ≠ absPath → q ≠ destPath → q ≠ bkPath → g q = fs q) →
      backupRestore g absPath bkPath = fs := by
    intro g ga gd gb goth
    have hc : copyF g bkPath absPath = some (setNode g absPath (FNode.file d)) :=
      copyF_eq g bkPath absPath d (statResolve_file _ _ _ gb)
        (fun t hh => by rw [ga] at hh; cases hh) (by rw [ga]; intro hh; cases hh)
    rw [backupRestore, hc]
    show setNode (setNode g absPath (FNode.file d)) bkPath FNode.missing = fs
    funext q
    by_cases e1 : q = bkPath
    · subst e1
      rw [setNode_self, hb]
    · rw [setNode_other _ _ _ _ e1]
      by_cases e2 : q = absPath
      · subst e2
        rw [setNode_self, ha]
      · rw [setNode_other _ _ _ _ e2]
        by_cases e3 : q = destPath
        · subst e3
          rw [gd, hd]
        · exact goth q e2 e3 e1
  rcases fl with ⟨bf, ⟨rf, cf, df⟩, lf, sf⟩
  cases bf with
  | true =>
    left
    rw [runAddTail, hstat]
    rfl
  | false =>
    -- fs2 is the state after a successful move into storage
    have f2a : setNode (setNode (setNode fs bkPath (FNode.file d)) destPath (FNode.file d))
        absPath FNode.missing absPath = FNode.missing := setNode_self _ _ _
    have f2d : setNode (setNode (setNode fs bkPath (FNode.file d)) destPath (FNode.file d))
        absPath FNode.missing destPath = FNode.file d := by
      rw [setNode_other _ _ _ _ (Ne.symm h1), setNode_self]
    have f2b : setNode (setNode (setNode fs bkPath (FNode.file d)) destPath (FNode.file d))
        absPath FNode.missing bkPath = FNode.file d := by
      rw [setNode_other _ _ _ _ (Ne.symm h2), setNode_other _ _ _ _ (Ne.symm h3), f1b]
    have f2oth : ∀ q, q ≠ absPath → q ≠ destPath → q ≠ bkPath →
        setNode (setNode (setNode fs bkPath (FNode.file d)) destPath (FNode.file d))
          absPath FNode.missing q = fs q := by
      intro q e1 e2 e3
      rw [setNode_other _ _ _ _ e1, setNode_other _ _ _ _ e2, f1oth q e3]
    have hmove : (∃ g : FS, moveFileM (setNode fs bkPath (FNode.file d))
          (MoveFaults.mk rf cf df) absPath destPath = (g, false)
        ∧ g absPath = FNode.file d ∧ g destPath = FNode.missing ∧ g bkPath = FNode.file d
        ∧ (∀ q, q ≠ absPath → q ≠ destPath → q ≠ bkPath → g q = fs q))
      ∨ moveFileM (setNode fs bkPath (FNode.file d)) (MoveFaults.mk rf cf df) absPath destPath
        = (setNode (setNode (setNode fs bkPath (FNode.file d)) destPath (FNode.file d))
            absPath FNode.missing, true) := by
      cases rf with
      | false =>
        right
        rw [moveFileM, if_pos ⟨by simp, by rw [f1a]; intro hh; cases hh⟩, f1a]
      | true =>
        cases cf with
        | true =>
          left
          refine ⟨setNode fs bkPath (FNode.file d), ?_, f1a, f1d, f1b,
            fun q e1 e2 e3 => f1oth q e3⟩
          rw [moveFileM, if_neg (by rintro ⟨hh, -⟩; exact hh rfl)]
          rfl
        | false =>
          have hcp : copyF (setNode fs bkPath (FNode.file d)) absPath destPath
              = some (setNode (setNode fs bkPath (FNode.file d)) destPath (FNode.file d)) :=
            copyF_eq _ absPath destPath d (statResolve_file _ _ _ f1a)
              (fun t hh => by rw [f1d] at hh; cases hh) (by rw [f1d]; intro hh; cases hh)
          cases df with
          | true =>
            left
            refine ⟨setNode (setNode (setNode fs bkPath (FNode.file d)) destPath
                (FNode.file d)) destPath FNode.missing, ?_, ?_, setNode_self _ _ _, ?_, ?_⟩
            · rw [moveFileM, if_neg (by rintro ⟨hh, -⟩; exact hh rfl)]
              simp only [hcp]
              rfl
            · rw [setNode_other _ _ _ _ h1, setNode_other _ _ _ _ h1, f1a]
            · rw [setNode_other _ _ _ _ (Ne.symm h3), setNode_other _ _ _ _ (Ne.symm h3), f1b]
            · intro q e1 e2 e3
              rw [setNode_other _ _ _ _ e2, setNode_other _ _ _ _ e2, f1oth q e3]
          | false =>
            right
            rw [moveFileM, if_neg (by rintro ⟨hh, -⟩; exact hh rfl)]
            simp only [hcp]
            rfl
    rcases hmove with ⟨g, hg, ga, gd, gb, goth⟩ | hmv
    · left
      rw [runAddTail, hstat]
      simp only [hbkcopy, Bool.false_eq_true, if_false, hg]
      rw [hrb g ga gd gb goth]
    · cases lf with
      | true =>
        left
        rw [runAddTail, hstat]
        simp only [hbkcopy, Bool.false_eq_true, if_false, hmv, eq_self_iff_true, if_true]
        have hmv2 : moveFileM (setNode (setNode (setNode fs bkPath (FNode.file d)) destPath
            (FNode.file d)) absPath FNode.missing) noMoveFaults destPath absPath
            = (setNode (setNode (setNode (setNode (setNode fs bkPath (FNode.file d)) destPath
                (FNode.file d)) absPath FNode.missing) absPath (FNode.file d)) destPath
                FNode.missing, true) := by
          rw [moveFileM, if_pos ⟨by decide, by rw [f2d]; intro hh; cases hh⟩, f2d]
        simp only [hmv2]
        rw [hrb _ ?_ ?_ ?_ ?_]
        · rw [setNode_other _ _ _ _ h1, setNode_self]
        · exact setNode_self _ _ _
        · rw [setNode_other _ _ _ _ (Ne.symm h3), setNode_other _ _ _ _ (Ne.symm h2), f2b]
        · intro q e1 e2 e3
          rw [setNode_other _ _ _ _ e2, setNode_other _ _ _ _ e1, f2oth q e1 e2 e3]
      | false =>
        have hcl : createLink (setNode (setNode (setNode fs bkPath (FNode.file d)) destPath
            (FNode.file d)) absPath FNode.missing) absPath destPath
            = (setNode (setNode (setNode (setNode fs bkPath (FNode.file d)) destPath
                (FNode.file d)) absPath FNode.missing) absPath (FNode.symlink destPath),
              true) := by
          rw [createLink, f2a]
        cases sf with
        | false =>
          right
          rw [runAddTail, hstat]
          simp only [hbkcopy, Bool.false_eq_true, if_false, hmv, hcl]
        | true =>
          left
          rw [runAddTail, hstat]
          simp only [hbkcopy, Bool.false_eq_true, if_false, hmv, hcl, eq_self_iff_true,
            if_true]
          have hrm2 : removeLink (setNode (setNode (setNode (setNode fs bkPath
              (FNode.file d)) destPath (FNode.file d)) absPath FNode.missing) absPath
              (FNode.symlink destPath)) absPath
              = (setNode (setNode (setNode (setNode (setNode fs bkPath (FNode.file d))
                  destPath (FNode.file d)) absPath FNode.missing) absPath
                  (FNode.symlink destPath)) absPath FNode.missing, true) := by
            rw [removeLink, setNode_self]
          have f4d : setNode (setNode (setNode (setNode (setNode fs bkPath (FNode.file d))
              destPath (FNode.file d)) absPath FNode.missing) absPath
              (FNode.symlink destPath)) absPath FNode.missing destPath = FNode.file d := by
            rw [setNode_other _ _ _ _ (Ne.symm h1), setNode_other _ _ _ _ (Ne.symm h1), f2d]
          have hmv3 : moveFileM (setNode (setNode (setNode (setNode (setNode fs bkPath
              (FNode.file d)) destPath (FNode.file d)) absPath FNode.missing) absPath
              (FNode.symlink destPath)) absPath FNode.missing) noMoveFaults destPath absPath
              = (setNode (setNode (setNode (setNode (setNode (setNode (setNode fs bkPath
                  (FNode.file d)) destPath (FNode.file d)) absPath FNode.missing) absPath
                  (FNode.symlink destPath)) absPath FNode.missing) absPath (FNode.file d))
                  destPath FNode.missing, true) := by
            rw [moveFileM, if_pos ⟨by decide, by rw [f4d]; intro hh; cases hh⟩, f4d]
          simp only [hrm2, hmv3]
          rw [hrb _ ?_ ?_ ?_ ?_]
          · rw [setNode_other _ _ _ _ h1, setNode_self]
          · exact setNode_self _ _ _
          · rw [setNode_other _ _ _ _ (Ne.symm h3), setNode_other _ _ _ _ (Ne.symm h2),
              setNode_other _ _ _ _ (Ne.symm h2), setNode_other _ _ _ _ (Ne.symm h2), f2b]
          · intro q e1 e2 e3
            rw [setNode_other _ _ _ _ e2, setNode_other _ _ _ _ e1,
              setNode_other _ _ _ _ e1, setNode_other _ _ _ _ e1, f2oth q e1 e2 e3]


/-- Claim C1: Add is all-or-nothing.  For every Add invocation on a file and
every injected failure at a destructive step (the move into storage, the
symlink creation, or the manifest save, including the internal rename, copy
and delete fault modes of the move), after runAdd's destructive tail returns,
the file's content exists at exactly one of the original location and the
computed storage destination — never both and never neither — every failure
path leaves the filesystem exactly as it was before the Add began, and on
success the original location holds a symlink to the storage copy with the
backup discarded. -/
theorem c1_add_all_or_nothing (fs : FS) (fl : AddFaults) (absPath destPath bkPath : GoStr) (d : Nat)
    (h1 : absPath ≠ destPath) (h2 : absPath ≠ bkPath) (h3 : destPath ≠ bkPath)
    (ha : fs absPath = FNode.file d) (hd : fs destPath = FNode.missing)
    (hb : fs bkPath = FNode.missing) :
    (((runAddTail fs fl absPath destPath bkPath).1 absPath = FNode.file d
        ∧ (runAddTail fs fl absPath destPath bkPath).1 destPath ≠ FNode.file d)
      ∨ ((runAddTail fs fl absPath destPath bkPath).1 destPath = FNode.file d
        ∧ (runAddTail fs fl absPath destPath bkPath).1 absPath ≠ FNode.file d))
  ∧ ((runAddTail fs fl absPath destPath bkPath).2 = false →
      (runAddTail fs fl absPath destPath bkPath).1 = fs)
  ∧ ((runAddTail fs fl absPath destPath bkPath).2 = true →
      (runAddTail fs fl absPath destPath bkPath).1 absPath = FNode.symlink destPath
      ∧ (runAddTail fs fl absPath destPath bkPath).1 destPath = FNode.file d
      ∧ (runAddTail fs fl absPath destPath bkPath).1 bkPath = FNode.missing) := by
  rcases runAddTail_cases fs fl absPath destPath bkPath d h1 h2 h3 ha hd hb with hk | hk
  · rw [hk]
    refine ⟨Or.inl ⟨ha, ?_⟩, fun _ => rfl, fun hh => Bool.noConfusion hh⟩
    show fs destPath ≠ FNode.file d
    rw [hd]
    intro hh
    cases hh
  · rw [hk]
    have pa : (setNode (setNode (setNode (setNode (setNode fs bkPath (FNode.file d)) destPath
        (FNode.file d)) absPath FNode.missing) absPath (FNode.symlink destPath))
        bkPath FNode.missing) absPath = FNode.symlink destPath := by
      rw [setNode_other _ _ _ _ h2, setNode_self]
    have pd : (setNode (setNode (setNode (setNode (setNode fs bkPath (FNode.file d)) destPath
        (FNode.file d)) absPath FNode.missing) absPath (FNode.symlink destPath))
        bkPath FNode.missing) destPath = FNode.file d := by
      rw [setNode_other _ _ _ _ h3, setNode_other _ _ _ _ (Ne.symm h1),
        setNode_other _ _ _ _ (Ne.symm h1), setNode_self]
    have pb : (setNode (setNode (setNode (setNode (setNode fs bkPath (FNode.file d)) destPath
        (FNode.file d)) absPath FNode.missing) absPath (FNode.symlink destPath))
        bkPath FNode.missing) bkPath = FNode.missing := setNode_self _ _ _
    refine ⟨Or.inr ⟨pd, ?_⟩, fun hh => Bool.noConfusion hh, fun _ => ⟨pa, pd, pb⟩⟩
    intro hh
    exact FNode.noConfusion (pa.symm.trans hh)


end Dotsync

namespace Dotsync

theorem c1_add_witness :
    ((gs "/home/u/.zshrc" : GoStr) ≠ gs "/st/dotsync/zsh/.zshrc"
      ∧ (gs "/home/u/.zshrc" : GoStr) ≠ gs "/home/u/.cache/dotsync/backups/b"
      ∧ (gs "/st/dotsync/zsh/.zshrc" : GoStr) ≠ gs "/home/u/.cache/dotsync/backups/b"
      ∧ (fun p => if p = gs "/home/u/.zshrc" then FNode.file 4 else FNode.missing)
          (gs "/home/u/.zshrc") = FNode.file 4
      ∧ (fun p => if p = gs "/home/u/.zshrc" then FNode.file 4 else FNode.missing)
          (gs "/st/dotsync/zsh/.zshrc") = FNode.missing
      ∧ (fun p => if p = gs "/home/u/.zshrc" then FNode.file 4 else FNode.missing)
          (gs "/home/u/.cache/dotsync/backups/b") = FNode.missing)
    ∧ ((runAddTail (fun p => if p = gs "/home/u/.zshrc" then FNode.file 4 else FNode.missing)
          (AddFaults.mk false (MoveFaults.mk false false false) false true)
          (gs "/home/u/.zshrc") (gs "/st/dotsync/zsh/.zshrc")
          (gs "/home/u/.cache/dotsync/backups/b")).2 = false →
        (runAddTail (fun p => if p = gs "/home/u/.zshrc" then FNode.file 4 else FNode.missing)
          (AddFaults.mk false (MoveFaults.mk false false false) false true)
          (gs "/home/u/.zshrc") (gs "/st/dotsync/zsh/.zshrc")
          (gs "/home/u/.cache/dotsync/backups/b")).1
          = (fun p => if p = gs "/home/u/.zshrc" then FNode.file 4 else FNode.missing)) :=
  ⟨⟨by decide, by decide, by decide, by decide, by decide, by decide⟩,
    (c1_add_all_or_nothing _
      (AddFaults.mk false (MoveFaults.mk false false false) false true) _ _ _ 4
      (by decide) (by decide) (by decide) (by decide) (by decide) (by decide)).2.1⟩

end Dotsync
